import Mathlib

/-!
Verification development for `cal.py` (sentral-icals): a one-shot converter
that scrapes a school HTML calendar and emits an iCalendar feed.

The Python source is shallowly embedded below.  External libraries
(`requests`, `bs4`, `icalendar`, `pytz`, `hashlib`) are black boxes: the DOM
is modelled as the lists of visible text fragments the code reads from it,
the MD5 digest as an arbitrary function of the byte string the code feeds to
it (strings concatenate, so the digest input is the concatenation), and an
icalendar component as a record of the fields the code adds to it.
`datetime.strptime` is modelled per format string following CPython's
`_strptime` regexes.
-/

namespace Sentral

/-- Value of a decimal digit character. -/
def dval (c : Char) : Nat := c.toNat - 48

/-- A naive time of day, as produced by `datetime.strptime` with the
`%I:%M%p` / `%I%p` formats (the 1900-01-01 default date is irrelevant: the
code only uses the time and the difference of two such values). -/
structure NaiveTime where
  hour : Nat
  minute : Nat
deriving DecidableEq

/-- `%I` field of `strptime`: hour 1..12, one or two digits
(CPython regex `1[0-2]|0[1-9]|[1-9]`, longest alternative first).
Returns the hour and the unconsumed characters. -/
def parseHour12 : List Char → Option (Nat × List Char)
  | [] => none
  | [c] => if c.isDigit ∧ c ≠ '0' then some (dval c, []) else none
  | c1 :: c2 :: rest =>
    if c1 = '1' ∧ ('0' ≤ c2 ∧ c2 ≤ '2') then some (10 + dval c2, rest)
    else if c1 = '0' ∧ ('1' ≤ c2 ∧ c2 ≤ '9') then some (dval c2, rest)
    else if c1.isDigit ∧ c1 ≠ '0' then some (dval c1, c2 :: rest)
    else none

/-- `%M` field of `strptime`: minute 0..59, one or two digits
(CPython regex `[0-5]\d|\d`). -/
def parseMinute : List Char → Option (Nat × List Char)
  | [] => none
  | [c] => if c.isDigit then some (dval c, []) else none
  | c1 :: c2 :: rest =>
    if ('0' ≤ c1 ∧ c1 ≤ '5') ∧ c2.isDigit then some (10 * dval c1 + dval c2, rest)
    else if c1.isDigit then some (dval c1, c2 :: rest)
    else none

/-- `%p` field of `strptime`: `am`/`pm`, case-insensitive.
Returns `true` for pm. -/
def parseAmPm : List Char → Option (Bool × List Char)
  | c1 :: c2 :: rest =>
    if c1.toLower = 'a' ∧ c2.toLower = 'm' then some (false, rest)
    else if c1.toLower = 'p' ∧ c2.toLower = 'm' then some (true, rest)
    else none
  | _ => none

/-- The `%I`+`%p` hour adjustment performed by `_strptime`:
pm adds 12 except for 12pm; 12am is hour 0. -/
def adjustHour (h : Nat) (pm : Bool) : Nat :=
  if pm then (if h = 12 then 12 else h + 12)
  else (if h = 12 then 0 else h)

/-- `datetime.strptime(bit, "%I:%M%p")`: 12-hour time with minutes, the whole
string must be consumed (strptime rejects unconverted trailing data). -/
def strptimeIMp (s : String) : Option NaiveTime := do
  let (h, r1) ← parseHour12 s.data
  let r2 ← match r1 with
    | ':' :: t => some t
    | _ => none
  let (m, r3) ← parseMinute r2
  let (pm, r4) ← parseAmPm r3
  if r4 = [] then some ⟨adjustHour h pm, m⟩ else none

/-- `datetime.strptime(bit, "%I%p")`: 12-hour whole-hour time. -/
def strptimeIp (s : String) : Option NaiveTime := do
  let (h, r1) ← parseHour12 s.data
  let (pm, r2) ← parseAmPm r1
  if r2 = [] then some ⟨adjustHour h pm, 0⟩ else none

/-- The format list of `parse_duration`: `['%I:%M%p', '%I%p']`, tried in
this order. -/
def formats : List (String → Option NaiveTime) := [strptimeIMp, strptimeIp]

/-- The inner loop of `parse_duration` for one fragment: try each format in
order, keeping the first success (`try/except ValueError … else break`). -/
def parseBit (bit : String) : Option NaiveTime :=
  formats.foldl (fun acc fmt =>
    match acc with
    | some t => some t
    | none => fmt bit) none

/-- `duration.split(' - ')`: left-to-right scan splitting at each
non-overlapping occurrence of the three-character separator `" - "`.
`cur` accumulates the current fragment in reverse. -/
def splitDur : List Char → List Char → List String
  | ' ' :: '-' :: ' ' :: rest, cur => String.mk cur.reverse :: splitDur rest []
  | c :: rest, cur => splitDur rest (c :: cur)
  | [], cur => [String.mk cur.reverse]

/-- The `bits` list of `parse_duration`: `duration.split(' - ')`. -/
def durationBits (duration : String) : List String :=
  splitDur duration.data []

/-- Recursive core of `parse_duration`: parse the fragments split on
`" - "`, raising `ValueError` (modelled as `Except.error`) at the first
fragment neither format accepts, the error message naming that fragment. -/
def parseBits : List String → Except String (List NaiveTime)
  | [] => .ok []
  | bit :: rest =>
    match parseBit bit with
    | none => .error ("Unkown timestamp \x27" ++ bit ++ "\x27")
    | some t =>
      match parseBits rest with
      | .ok ts => .ok (t :: ts)
      | .error e => .error e

/-- `parse_duration(duration)`: split on `" - "` and parse each fragment. -/
def parse_duration (duration : String) : Except String (List NaiveTime) :=
  parseBits (durationBits duration)

/-! ### The `%b %d` day-label parser used for `event['day']` -/

/-- The C-locale abbreviated month names matched (case-insensitively) by
`strptime`'s `%b` field. -/
def monthAbbrevs : List String :=
  ["jan", "feb", "mar", "apr", "may", "jun",
   "jul", "aug", "sep", "oct", "nov", "dec"]

/-- Month number (1..12) of a lowercased three-letter abbreviation. -/
def monthOfAbbrev (s : String) : Option Nat :=
  (monthAbbrevs.indexOf? s).map (fun i => i + 1)

/-- Whitespace in a `strptime` format matches one or more whitespace
characters of the input; the labels use plain spaces. -/
def skipSpaces1 : List Char → Option (List Char)
  | ' ' :: rest => some (rest.dropWhile (fun c => c = ' '))
  | _ => none

/-- `%d` field of `strptime`: day of month 1..31, one or two digits
(CPython regex `3[01]|[12]\d|0[1-9]|[1-9]`). -/
def parseDayNum : List Char → Option (Nat × List Char)
  | [] => none
  | [c] => if c.isDigit ∧ c ≠ '0' then some (dval c, []) else none
  | c1 :: c2 :: rest =>
    if c1 = '3' ∧ (c2 = '0' ∨ c2 = '1') then some (30 + dval c2, rest)
    else if (c1 = '1' ∨ c1 = '2') ∧ c2.isDigit then some (10 * dval c1 + dval c2, rest)
    else if c1 = '0' ∧ (c2.isDigit ∧ c2 ≠ '0') then some (dval c2, rest)
    else if c1.isDigit ∧ c1 ≠ '0' then some (dval c1, c2 :: rest)
    else none

/-- Days in each month of `strptime`'s default year 1900 (not a leap year):
the parsed fields must form a valid 1900 date or `strptime` raises. -/
def daysInMonth1900 (m : Nat) : Nat :=
  if m = 2 then 28
  else if m = 4 ∨ m = 6 ∨ m = 9 ∨ m = 11 then 30
  else 31

/-- `datetime.strptime(day, "%b %d")`, keeping only the month and day the
code uses (the default year 1900 is immediately replaced). -/
def parseDay (s : String) : Option (Nat × Nat) :=
  match s.data with
  | a :: b :: c :: rest => do
    let m ← monthOfAbbrev (String.mk [a.toLower, b.toLower, c.toLower])
    let r1 ← skipSpaces1 rest
    let (d, r2) ← parseDayNum r1
    if r2 = [] ∧ 1 ≤ d ∧ d ≤ daysInMonth1900 m then some (m, d) else none
  | _ => none

/-! ### Constants and the calendar registry -/

/-- `SEQ_NUM = 1`. -/
def SEQ_NUM : Nat := 1

/-- `TZID = 'Australia/Sydney'`. -/
def TZID : String := "Australia/Sydney"

/-- `LOCALTZ`: the host's ambient local zone
(`datetime.now(utc).astimezone().tzinfo`), an opaque host-dependent value;
only its identity matters to the claims, so it is modelled by a tag. -/
def LOCALTZ : String := "host-local"

/-- `CALS`: the static registry, in dict insertion order. -/
def CALS : List (Nat × String) :=
  [(67, "Music"), (69, "Parent"), (66, "Whole School"),
   (63, "Yr 10"), (64, "Yr 11"), (65, "Yr 12"),
   (60, "Yr 7"), (61, "Yr 8"), (62, "Yr 9")]

/-- `str.casefold`: for the ASCII registry names and inputs this is ASCII
lowercasing, applied character by character. -/
def casefold (s : String) : String := String.mk (s.data.map Char.toLower)

/-- The inner `cal2id` of `cal_names_to_ids`: scan the registry in order and
return the key of the first case-insensitive name match, else `None`. -/
def cal2id (name : String) : Option Nat :=
  (CALS.find? (fun p => casefold p.2 = casefold name)).map Prod.fst

/-- `cal_names_to_ids(names)`: the Python set of `cal2id` over the names
(unmatched names contribute `None` to the set). -/
def cal_names_to_ids (names : List String) : Finset (Option Nat) :=
  (names.map cal2id).toFinset

/-! ### Event extraction -/

/-- The dict returned by `process_event`: keys `time` (optional) and
`event`. -/
structure ProcEvent where
  time : Option String
  event : String
deriving DecidableEq

/-- `process_event(dom, _cal)`.  The DOM element is modelled by
`list(dom.strings)`, its visible text fragments.  The second argument is
bound but never used in the body (Python names it `_cal`).  With no
fragments, `strings[0]` raises `IndexError`, modelled as `none`. -/
def process_event (strings : List String) (_cal : String) : Option ProcEvent :=
  match strings with
  | [] => none
  | [s] => some { time := none, event := s }
  | s0 :: s1 :: _ => some { time := some s0, event := s1 }

/-- The raw event dict after `get_events` merges in the day label:
`entry = dict(day=day_name); entry.update(event)`. -/
structure RawEvent where
  event : String
  day : String
  time : Option String
deriving DecidableEq

/-- The pure per-calendar core of `get_events` (lines 120-129): given the
scraped days — each a day-label string and the fragment lists of its event
nodes — build the raw events, day by day and node by node in document
order.  `calName` is the `CALS[calid]` value whose `calName ++ ": "` is
passed to `process_event`.  `none` models an `IndexError` from an empty
node. -/
def extract_events (calName : String)
    (days : List (String × List (List String))) : Option (List RawEvent) :=
  (days.mapM (fun (day : String × List (List String)) =>
    day.2.mapM (fun node =>
      (process_event node (calName ++ ": ")).map
        (fun pe => RawEvent.mk pe.event day.1 pe.time)))).map List.flatten

/-! ### Event normalisation (`as_ical_event`) -/

/-- The byte string fed to the MD5 digest in `as_ical_event`: the successive
`md5.update` calls concatenate the UTF-8 bytes of the event title, the day
label, `str(year)`, and the time text when present.  The uid is the digest
of this string (formatted as a UUID) plus a fixed suffix, so it is a
function of this string. -/
def uidInput (year : Int) (e : RawEvent) : String :=
  e.event ++ e.day ++ toString year ++ e.time.getD ""

/-- A value passed to `icalendar`'s `add` for `dtstart`/`dtend`: either a
Python `date` (serialised as an iCalendar DATE, no time component) or a
Python `datetime` (serialised as a DATE-TIME, with its zone). -/
inductive IcsDT where
  | date (year : Int) (month day : Nat)
  | dateTime (year : Int) (month day hour minute : Nat) (tz : String)
deriving DecidableEq

/-- Whether the value carries a time component (a Python `datetime` as
opposed to a `date`). -/
def IcsDT.hasTime : IcsDT → Bool
  | .date .. => false
  | .dateTime .. => true

/-- The fields `as_ical_event` adds to the `icalendar.Event`.  `duration`
is the stored timedelta in minutes. -/
structure IcsEvent where
  summary : String
  uid : String
  sequence : String
  dtstart : IcsDT
  dtend : Option IcsDT
  duration : Option Int
deriving DecidableEq

/-- Minutes of a naive time, for the `dtend - dtstart` timedelta (both
carry `strptime`'s default date, so the difference is the time
difference). -/
def NaiveTime.minutes (t : NaiveTime) : Int := Int.ofNat (t.hour * 60 + t.minute)

/-- `as_ical_event(year, event)`.  `md5hex` is the external MD5 digest
(already UUID-formatted), a black box: the code applies it to `uidInput`.
`strptime` and `parse_duration` failures propagate as `ValueError`
(`Except.error`); so does unpacking `parse_duration`'s result into
`dtstart, dtend` when it does not have exactly two elements, and so does
`datetime.replace(year=...)`, which validates the new year against
`MINYEAR..MAXYEAR` (1..9999) and raises `ValueError` outside that range.
The timed branch combines the resolved date with the parsed start time in
the named zone `TZID`; the all-day branch uses the resolved date at
midnight with the host-local zone for both `dtstart` and `dtend`. -/
def as_ical_event (md5hex : String → String) (year : Int) (e : RawEvent) :
    Except String IcsEvent :=
  let uid := md5hex (uidInput year e) ++ "@ralismark.github.io"
  match parseDay e.day with
  | none => .error ("time data \x27" ++ e.day ++ "\x27 does not match format \x27%b %d\x27")
  | some (m, d) =>
    if ¬(1 ≤ year ∧ year ≤ 9999) then
      .error ("year " ++ toString year ++ " must be in 1..9999")
    else
    match e.time with
    | some t =>
      match parse_duration t with
      | .error msg => .error msg
      | .ok [t1, t2] =>
        .ok { summary := e.event, uid := uid, sequence := toString SEQ_NUM,
              dtstart := .dateTime year m d t1.hour t1.minute TZID,
              dtend := none,
              duration := some (t2.minutes - t1.minutes) }
      | .ok ts => .error ("cannot unpack " ++ toString ts.length ++ " values into 2")
    | none =>
      .ok { summary := e.event, uid := uid, sequence := toString SEQ_NUM,
            dtstart := .dateTime year m d 0 0 LOCALTZ,
            dtend := some (.dateTime year m d 0 0 LOCALTZ),
            duration := none }

/-! ### Feed assembly (`make_cal`) -/

/-- A sub-component of the calendar: the VTIMEZONE descriptor (its
transition data comes from the zone database, a black box, so it is
represented by its zone id) or a VEVENT.  `missing` models the Python
`None` that `generate_vtimezone` returns for an empty zone id. -/
inductive CalComponent where
  | vtimezone (tzid : String)
  | event (e : IcsEvent)
  | missing
deriving DecidableEq

/-- `generate_vtimezone(tzid)`: `None` for an empty zone id, otherwise the
descriptor for that zone. -/
def generate_vtimezone (tzid : String) : Option CalComponent :=
  if tzid = "" then none else some (.vtimezone tzid)

/-- The fields and components `make_cal` puts on the `icalendar.Calendar`. -/
structure Cal where
  version : String
  prodid : String
  calname : String
  components : List CalComponent
deriving DecidableEq

/-- `make_cal(seq)`: fixed version, product id and display name; then the
timezone descriptor is added first, then each event of `seq` in order. -/
def make_cal (seq : List IcsEvent) : Cal :=
  { version := "2.0"
  , prodid := "-//Sentral Calendar Script//ralismark.github.io//"
  , calname := "Sentral Calendar"
  , components :=
      (match generate_vtimezone TZID with
       | some c => c
       | none => .missing) :: seq.map CalComponent.event }

/-- The VEVENT carried by a component, if any. -/
def componentEvent : CalComponent → Option IcsEvent
  | .event e => some e
  | _ => none

/-! ### Helper lemmas -/

/-- If every fragment parses, `parseBits` succeeds with one time per
fragment. -/
lemma parseBits_ok_of_all (bits : List String)
    (h : ∀ b ∈ bits, (parseBit b).isSome) :
    ∃ ts, parseBits bits = .ok ts ∧ ts.length = bits.length := by
  induction bits with
  | nil => exact ⟨[], rfl, rfl⟩
  | cons bit rest ih =>
    have hbit : (parseBit bit).isSome := h bit (List.mem_cons_self _ _)
    obtain ⟨t, ht⟩ := Option.isSome_iff_exists.mp hbit
    obtain ⟨ts, hts, hlen⟩ := ih (fun b hb => h b (List.mem_cons_of_mem _ hb))
    refine ⟨t :: ts, ?_, by simp [hlen]⟩
    simp only [parseBits, ht, hts]

/-- If some fragment fails both formats, `parseBits` fails, and the error
message names a failing fragment. -/
lemma parseBits_error_of_mem (bits : List String) (b : String)
    (hb : b ∈ bits) (hfail : parseBit b = none) :
    ∃ b2, b2 ∈ bits ∧ parseBit b2 = none ∧
      parseBits bits = .error ("Unkown timestamp \x27" ++ b2 ++ "\x27") := by
  induction bits with
  | nil => cases hb
  | cons bit rest ih =>
    by_cases hbit : parseBit bit = none
    · exact ⟨bit, List.mem_cons_self _ _, hbit, by simp only [parseBits, hbit]⟩
    · obtain ⟨t, ht⟩ := Option.ne_none_iff_exists'.mp hbit
      have hbrest : b ∈ rest := by
        rcases List.mem_cons.mp hb with h1 | h1
        · exact absurd (h1 ▸ hfail) hbit
        · exact h1
      obtain ⟨b2, hb2, hb2fail, hb2err⟩ := ih hbrest
      refine ⟨b2, List.mem_cons_of_mem _ hb2, hb2fail, ?_⟩
      simp only [parseBits, ht, hb2err]

/-! ### Claims -/

/-- C1 (amended): the uid is a pure function of the digest input, which is
the unseparated concatenation of title, day label, `str(year)` and time
text; two raw events with identical (title, day label, year, time text)
therefore get identical digest inputs, hence identical uids under the MD5
digest.  (The converse fails: see the counterexample.) -/
theorem c1_uid_pure_function (y1 y2 : Int) (e1 e2 : RawEvent)
    (hev : e1.event = e2.event) (hday : e1.day = e2.day)
    (hy : y1 = y2) (ht : e1.time = e2.time) :
    uidInput y1 e1 = uidInput y2 e2 := by
  cases e1
  cases e2
  simp only at hev hday ht
  simp [uidInput, hev, hday, hy, ht]

/-- C1 witness: two raw events with identical fields get identical digest
inputs. -/
theorem c1_uid_pure_function_witness :
    uidInput 2024 (RawEvent.mk "Swimming" "Mar 03" none) =
      uidInput 2024 (RawEvent.mk "Swimming" "Mar 03" none) :=
  c1_uid_pure_function 2024 2024 _ _ rfl rfl rfl rfl

/-- C1 counterexample: two raw events that differ in the year and in the
time text but produce the same concatenated digest input (year `202` with
time `"12am - 3am"` versus year `2021` with time `"2am - 3am"`, both years
inside datetime's valid range 1..9999), hence the same MD5 digest and the
same uid; both convert successfully. -/
theorem c1_uid_collision :
    uidInput 202 (RawEvent.mk "Assembly" "Mar 03" (some "12am - 3am")) =
      uidInput 2021 (RawEvent.mk "Assembly" "Mar 03" (some "2am - 3am")) ∧
    (some "12am - 3am" : Option String) ≠ some "2am - 3am" ∧
    (202 : Int) ≠ 2021 ∧
    (as_ical_event (fun s => s) 202
      (RawEvent.mk "Assembly" "Mar 03" (some "12am - 3am"))).isOk = true ∧
    (as_ical_event (fun s => s) 2021
      (RawEvent.mk "Assembly" "Mar 03" (some "2am - 3am"))).isOk = true :=
  ⟨rfl, by decide, by decide, rfl, rfl⟩

/-- C2: a timed raw event `"9:00am - 10:30am"` on day `"Mar 03"` for year
2024 normalizes (whatever the digest function and the title) to a start of
2024-03-03T09:00 in the configured named zone `Australia/Sydney`, with a
stored duration of 90 minutes. -/
theorem c2_timed_event (md5hex : String → String) (title : String) :
    ((as_ical_event md5hex 2024
        (RawEvent.mk title "Mar 03" (some "9:00am - 10:30am"))).map
      IcsEvent.dtstart) = .ok (.dateTime 2024 3 3 9 0 TZID) ∧
    ((as_ical_event md5hex 2024
        (RawEvent.mk title "Mar 03" (some "9:00am - 10:30am"))).map
      IcsEvent.duration) = .ok (some 90) ∧
    TZID = "Australia/Sydney" :=
  ⟨rfl, rfl, rfl⟩

/-- C3 (amended): an all-day raw event (no time text) whose day label
parses, for a year in datetime's valid range 1..9999, resolves to an event
whose `dtstart` and `dtend` are both the resolved calendar date at midnight
in the host-local zone — equal to each other, but carried as a date-time
(midnight time component), not as a bare date. -/
theorem c3_allday_start_eq_end (md5hex : String → String) (year : Int)
    (e : RawEvent) (m d : Nat)
    (htime : e.time = none) (hday : parseDay e.day = some (m, d))
    (hyear : 1 ≤ year ∧ year ≤ 9999) :
    as_ical_event md5hex year e =
      .ok { summary := e.event
          , uid := md5hex (uidInput year e) ++ "@ralismark.github.io"
          , sequence := "1"
          , dtstart := .dateTime year m d 0 0 LOCALTZ
          , dtend := some (.dateTime year m d 0 0 LOCALTZ)
          , duration := none } := by
  simp only [as_ical_event, hday, htime]
  rw [if_neg (not_not_intro hyear)]
  rfl

/-- C3 witness: the all-day event `"X"` on `"Mar 03"` for 2024. -/
theorem c3_allday_start_eq_end_witness :
    as_ical_event (fun s => s) 2024 (RawEvent.mk "X" "Mar 03" none) =
      .ok { summary := "X"
          , uid := (fun (s : String) => s)
              (uidInput 2024 (RawEvent.mk "X" "Mar 03" none)) ++
              "@ralismark.github.io"
          , sequence := "1"
          , dtstart := .dateTime 2024 3 3 0 0 LOCALTZ
          , dtend := some (.dateTime 2024 3 3 0 0 LOCALTZ)
          , duration := none } :=
  c3_allday_start_eq_end (fun s => s) 2024 _ 3 3 rfl rfl (by decide)

/-- C3 counterexample: the all-day event `"X"` on `"Mar 03"` is stored with
a `datetime` value — `dtstart` and `dtend` both carry a (midnight) time
component, so the produced component is not a time-free date. -/
theorem c3_allday_has_time_component :
    ((as_ical_event (fun s => s) 2024 (RawEvent.mk "X" "Mar 03" none)).map
      (fun ev => ev.dtstart.hasTime)) = .ok true ∧
    ((as_ical_event (fun s => s) 2024 (RawEvent.mk "X" "Mar 03" none)).map
      (fun ev => ev.dtend.map IcsDT.hasTime)) = .ok (some true) :=
  ⟨rfl, rfl⟩

/-- C4 (amended): the extractor's output does not depend on the category
name at all — the prefix argument is passed but unused — and every produced
title is verbatim one of the event node's own text fragments. -/
theorem c4_title_ignores_category :
    (∀ (c1 c2 : String) (days : List (String × List (List String))),
      extract_events c1 days = extract_events c2 days) ∧
    (∀ (strings : List String) (c : String) (pe : ProcEvent),
      process_event strings c = some pe → pe.event ∈ strings) := by
  constructor
  · intro c1 c2 days
    rfl
  · intro strings c pe h
    match strings, h with
    | [s], h =>
      cases h
      simp [List.mem_singleton]
    | s0 :: s1 :: rest, h =>
      cases h
      simp

/-- C4 witness: swapping the category name leaves the extraction unchanged,
and the title `"Assembly"` is the node's own fragment. -/
theorem c4_title_ignores_category_witness :
    extract_events "Music" [("Mar 03", [["Assembly"]])] =
      extract_events "Parent" [("Mar 03", [["Assembly"]])] ∧
    (ProcEvent.mk none "Assembly").event ∈ ["Assembly"] :=
  ⟨c4_title_ignores_category.1 "Music" "Parent" [("Mar 03", [["Assembly"]])],
   c4_title_ignores_category.2 ["Assembly"] "Music: "
     (ProcEvent.mk none "Assembly") rfl⟩

/-- C4 counterexample: extracting the node `["Assembly"]` for category
`"Music"` yields the title `"Assembly"`, not `"Music: Assembly"` — the
category display name is not folded into the title. -/
theorem c4_title_lacks_category :
    extract_events "Music" [("Mar 03", [["Assembly"]])] =
      some [RawEvent.mk "Assembly" "Mar 03" none] ∧
    (RawEvent.mk "Assembly" "Mar 03" none).event ≠ "Music" ++ ": " ++ "Assembly" :=
  ⟨rfl, by decide⟩

/-- C5: a name with no case-insensitive match in the registry resolves to
`None`, and that `None` is included in the returned id set (not filtered
out, not an error). -/
theorem c5_unmatched_name_null (names : List String) (name : String)
    (hmem : name ∈ names)
    (hnomatch : ∀ p ∈ CALS, casefold p.2 ≠ casefold name) :
    cal2id name = none ∧ none ∈ cal_names_to_ids names := by
  have hid : cal2id name = none := by
    unfold cal2id
    rw [List.find?_eq_none.mpr]
    · rfl
    · intro p hp
      simpa using hnomatch p hp
  refine ⟨hid, ?_⟩
  unfold cal_names_to_ids
  rw [List.mem_toFinset]
  exact hid ▸ List.mem_map_of_mem cal2id hmem

/-- C5 witness: `"Staff"` matches no registry name; `None` lands in the
result set. -/
theorem c5_unmatched_name_null_witness :
    cal2id "Staff" = none ∧ none ∈ cal_names_to_ids ["Staff"] :=
  c5_unmatched_name_null ["Staff"] "Staff" (by decide) (by decide)

/-- C6: each fragment is parsed by trying the with-minutes format first and
the whole-hour format second (the first success wins), and the parses are
correct: `"9am"` is 09:00 and `"9:05pm"` is 21:05. -/
theorem c6_format_order_and_values :
    (∀ bit, parseBit bit = (strptimeIMp bit).or (strptimeIp bit)) ∧
    parseBit "9am" = some ⟨9, 0⟩ ∧
    parseBit "9:05pm" = some ⟨21, 5⟩ := by
  refine ⟨fun bit => ?_, by decide, by decide⟩
  cases h : strptimeIMp bit <;> simp [parseBit, formats, h, Option.or]

/-- C7: `parse_duration` succeeds (with one time per fragment) whenever
every fragment of the `" - "`-split matches one of the two formats, and
fails whenever some fragment matches neither, with a `ValueError` whose
message names a fragment that matches neither format. -/
theorem c7_parse_duration_errors :
    (∀ d, (∀ b ∈ durationBits d, (parseBit b).isSome) →
      ∃ ts, parse_duration d = .ok ts ∧
        ts.length = (durationBits d).length) ∧
    (∀ d b, b ∈ durationBits d → parseBit b = none →
      ∃ b2, b2 ∈ durationBits d ∧ parseBit b2 = none ∧
        parse_duration d = .error ("Unkown timestamp \x27" ++ b2 ++ "\x27")) :=
  ⟨fun _ h => parseBits_ok_of_all _ h,
   fun _ b hb hfail => parseBits_error_of_mem _ b hb hfail⟩

/-- C7 witness: `"9:00am - 10:30am"` parses to two times; in
`"9am - xx"` the fragment `"xx"` matches neither format, and the parse
fails with an error naming a failing fragment. -/
theorem c7_parse_duration_errors_witness :
    (∃ ts, parse_duration "9:00am - 10:30am" = .ok ts ∧
      ts.length = (durationBits "9:00am - 10:30am").length) ∧
    (∃ b2, b2 ∈ durationBits "9am - xx" ∧ parseBit b2 = none ∧
      parse_duration "9am - xx" =
        .error ("Unkown timestamp \x27" ++ b2 ++ "\x27")) :=
  ⟨c7_parse_duration_errors.1 "9:00am - 10:30am" (by decide),
   c7_parse_duration_errors.2 "9am - xx" "xx" (by decide) (by decide)⟩

/-- C8: registry lookup is case-insensitive: `"Yr 10"` and `"yr 10"` both
resolve to id 63, and the returned id set for the pair has exactly one
element. -/
theorem c8_case_insensitive_lookup :
    cal_names_to_ids ["Yr 10", "yr 10"] = {some 63} ∧
    (cal_names_to_ids ["Yr 10", "yr 10"]).card = 1 ∧
    cal2id "Yr 10" = some 63 ∧
    cal2id "yr 10" = some 63 := by
  refine ⟨by decide, by decide, by decide, by decide⟩

/-- C9: the assembled feed has version `"2.0"`, the fixed product id and
display name, the timezone descriptor as its first component, and then
exactly the given events in the order received. -/
theorem c9_feed_assembly (seq : List IcsEvent) :
    (make_cal seq).version = "2.0" ∧
    (make_cal seq).prodid = "-//Sentral Calendar Script//ralismark.github.io//" ∧
    (make_cal seq).calname = "Sentral Calendar" ∧
    (make_cal seq).components =
      CalComponent.vtimezone "Australia/Sydney" :: seq.map CalComponent.event ∧
    (make_cal seq).components.filterMap componentEvent = seq := by
  refine ⟨rfl, rfl, rfl, rfl, ?_⟩
  have h2 : ∀ l : List IcsEvent,
      List.filterMap componentEvent (l.map CalComponent.event) = l := by
    intro l
    induction l with
    | nil => rfl
    | cons x xs ih => simpa [componentEvent, List.filterMap_cons] using ih
  show List.filterMap componentEvent
    (CalComponent.vtimezone TZID :: seq.map CalComponent.event) = seq
  simpa [componentEvent, List.filterMap_cons] using h2 seq

/-- C10: `process_event` is defined exactly on nodes with at least one text
fragment: any node with one or more fragments yields a record, while the
empty node hits the unguarded `strings[0]` (`IndexError`, modelled as
`none`). -/
theorem c10_process_event_precondition (cal s : String) (ss : List String) :
    (process_event (s :: ss) cal).isSome = true ∧
    process_event [] cal = none := by
  refine ⟨?_, rfl⟩
  cases ss <;> rfl

end Sentral
